import Mathlib

/-!
Verification of the price-data cleaning and portfolio-optimization
orchestration core of the Astra repository (src/market_data/app.py and
src/market_data/pyportfolio.py).

Modelling conventions:
- A pandas DataFrame of closing prices is a PriceTable: a row count plus an
  association list from column key (ticker) to the list of cell values.
  A cell is Option Rat; none models a missing value (NaN).  The cleaning
  code never does arithmetic on prices (it only counts non-missing cells,
  counts distinct non-missing cells, and tests emptiness), so exact
  rationals model the float entries faithfully for these operations.
- Python exceptions are PyError values carrying the exception class name
  and the message.  The repository raises plain ValueError everywhere in
  this core.  Messages are modelled by their static prefix; the f-string
  interpolation appended by the source (row counts, removed lists) is
  diagnostic text elided here.
- Library calls (yfinance, pypfopt solvers) are modelled as explicit
  oracle arguments: a theorem quantifying over the oracle holds for every
  behaviour of the external library.
-/

/-- Decidable equality for Except results, so that theorems about concrete
runs of the embedded functions can be settled by decide. -/
instance exceptDecEq {ε α : Type} [DecidableEq ε] [DecidableEq α] :
    DecidableEq (Except ε α) := fun a b =>
  match a, b with
  | .error e, .error f =>
    if h : e = f then .isTrue (congrArg Except.error h)
    else .isFalse (fun hef => h (Except.error.inj hef))
  | .ok x, .ok y =>
    if h : x = y then .isTrue (congrArg Except.ok h)
    else .isFalse (fun hxy => h (Except.ok.inj hxy))
  | .error _, .ok _ => .isFalse (fun h => Except.noConfusion h)
  | .ok _, .error _ => .isFalse (fun h => Except.noConfusion h)

/-- Python exception value: the exception class name and the message. -/
structure PyError where
  etype : String
  msg : String
deriving DecidableEq

/-- Model of a pandas DataFrame of prices: nRows is the length of the date
index, cols maps each column key (ticker) to its cells top to bottom.
Missing values (NaN) are none.  The spec (section 3) makes tickers unique
column keys; theorems that need this uniqueness take it as a hypothesis. -/
structure PriceTable where
  nRows : Nat
  cols : List (String × List (Option Rat))
deriving DecidableEq

/-- Column keys of the table, in column order (pandas df.columns). -/
def colNames (df : PriceTable) : List String :=
  df.cols.map Prod.fst

/-- Count of non-missing cells in a column (pandas Series.count). -/
def nonNullCount (c : List (Option Rat)) : Nat :=
  (c.filterMap id).length

/-- Number of distinct non-missing values in a column
(pandas Series.nunique with dropna=True). -/
def nuniqueDropna (c : List (Option Rat)) : Nat :=
  (c.filterMap id).dedup.length

/-- Model of pandas DataFrame.empty: true iff either axis has length 0. -/
def dfEmpty (df : PriceTable) : Bool :=
  df.nRows == 0 || df.cols.isEmpty

/-- Model of price_df.dropna(axis=1, how="all") (app.py line 37): keep the
columns having at least one non-missing cell. -/
def dropAllNanCols (df : PriceTable) : PriceTable :=
  ⟨df.nRows, df.cols.filter (fun c => nonNullCount c.2 != 0)⟩

/-- Model of clean.drop(columns=names): remove every column whose key is in
names (app.py lines 50 and 56). -/
def dropColsByName (df : PriceTable) (names : List String) : PriceTable :=
  ⟨df.nRows, df.cols.filter (fun c => !(names.contains c.1))⟩

/-- Lexicographic strictly-less on char lists by code point, the order
Python uses to compare strings.  Written with Nat comparisons because the
iterator-based core String order does not reduce in the kernel. -/
def strLtCore : List Char → List Char → Bool
  | [], [] => false
  | [], _ :: _ => true
  | _ :: _, [] => false
  | a :: as, b :: bs =>
    if a.toNat < b.toNat then true
    else if b.toNat < a.toNat then false
    else strLtCore as bs

/-- Python string less-or-equal: not strictly greater. -/
def pyStrLe (a b : String) : Bool :=
  !(strLtCore b.data a.data)

/-- Insert a string into a list so that an ascending list stays ascending. -/
def insertStr (x : String) : List String → List String
  | [] => [x]
  | y :: ys => if pyStrLe x y then x :: y :: ys else y :: insertStr x ys

/-- Insertion sort of strings in ascending Python string order. -/
def pySortStrings (l : List String) : List String :=
  l.foldr insertStr []

/-- Model of Python sorted(set(l)) for a list of strings: the distinct
elements in ascending order.  Which duplicate is kept is irrelevant after
sorting, so the last-occurrence dedup is used. -/
def pySortedSet (l : List String) : List String :=
  pySortStrings l.dedup

/-- Model of _validate_and_clean_prices (app.py lines 27 to 64), step for
step: raise on a None or empty frame; drop all-NaN columns and record the
requested tickers no longer present; raise when fewer than 2 rows; drop
columns with fewer than max(2, int(0.25 * rows)) non-missing cells; drop
columns with at most one distinct non-missing value; raise when no columns
remain; else return the cleaned frame and sorted(set(removed)).
int(len(clean) * 0.25) equals len / 4 because 0.25 is an exact binary
float and int truncates the nonnegative product. -/
def validate_and_clean_prices (priceDf : Option PriceTable)
    (requestedTickers : List String) :
    Except PyError (PriceTable × List String) :=
  match priceDf with
  | none => .error (PyError.mk "ValueError" "price data is None")
  | some df =>
    if dfEmpty df then .error (PyError.mk "ValueError" "price data is empty")
    else
      let clean := dropAllNanCols df
      let removed := requestedTickers.filter (fun t => !((colNames clean).contains t))
      if clean.nRows < 2 then
        .error (PyError.mk "ValueError" "insufficient history rows")
      else
        let min_obs := max 2 (clean.nRows / 4)
        let low_obs := (clean.cols.filter (fun c => nonNullCount c.2 < min_obs)).map Prod.fst
        let clean2 := if low_obs.isEmpty then clean else dropColsByName clean low_obs
        let removed2 := if low_obs.isEmpty then removed else removed ++ low_obs
        let const_cols := (clean2.cols.filter (fun c => nuniqueDropna c.2 ≤ 1)).map Prod.fst
        let clean3 := if const_cols.isEmpty then clean2 else dropColsByName clean2 const_cols
        let removed3 := if const_cols.isEmpty then removed2 else removed2 ++ const_cols
        if dfEmpty clean3 || decide (clean3.cols.length < 1) then
          .error (PyError.mk "ValueError" "no valid tickers left after cleaning")
        else
          .ok (clean3, pySortedSet removed3)

/-! Named forms of the intermediate steps of the cleaning pipeline.  They
are proved equal to the corresponding let-bound values of
validate_and_clean_prices and give the vocabulary for characterising it. -/

/-- Threshold min_obs = max(2, int(len(clean) * 0.25)) (app.py line 47). -/
def min_obs_of (clean : PriceTable) : Nat :=
  max 2 (clean.nRows / 4)

/-- Keys of the columns with too few observations (app.py line 48). -/
def low_obs_of (clean : PriceTable) : List String :=
  (clean.cols.filter (fun c => nonNullCount c.2 < min_obs_of clean)).map Prod.fst

/-- Table after the low-observation drop (app.py lines 49 to 51). -/
def afterLowObs (clean : PriceTable) : PriceTable :=
  if (low_obs_of clean).isEmpty then clean else dropColsByName clean (low_obs_of clean)

/-- Keys of the constant (zero-variance) columns (app.py line 54). -/
def const_cols_of (df2 : PriceTable) : List String :=
  (df2.cols.filter (fun c => nuniqueDropna c.2 ≤ 1)).map Prod.fst

/-- Table after the constant-column drop (app.py lines 55 to 57). -/
def afterConst (df2 : PriceTable) : PriceTable :=
  if (const_cols_of df2).isEmpty then df2 else dropColsByName df2 (const_cols_of df2)

/-- Table remaining after all three drops. -/
def finalClean (df : PriceTable) : PriceTable :=
  afterConst (afterLowObs (dropAllNanCols df))

/-- Value of the removed accumulator of the source just before the final
sorted(set(...)) call: requested tickers gone after the all-NaN drop, then
the low-observation keys, then the constant keys, in that order. -/
def removedAccum (df : PriceTable) (requested : List String) : List String :=
  requested.filter (fun t => !((colNames (dropAllNanCols df)).contains t))
    ++ low_obs_of (dropAllNanCols df)
    ++ const_cols_of (afterLowObs (dropAllNanCols df))

/-- Deduplication keeping the first occurrence of each element, the
discovery-order reading of a deduplicated removal list. -/
def dedupKeepFirst : List String → List String
  | [] => []
  | x :: xs => x :: (dedupKeepFirst xs).filter (fun y => y != x)

/-! Spec-side pipeline.  The next definitions follow the words of the spec
(section 4.1) and of claim C1, to be compared with the function embedded
from the source. -/

/-- Failure classes named by the spec (sections 4.1 and 7). -/
inductive CleanFailure
  | emptyData
  | insufficientHistory
  | noValidTickers
deriving DecidableEq

/-- Classifies a ValueError raised by the embedded cleaning code into the
failure taxonomy of the spec, going by the message: the message is the
only data the code provides to tell the failures apart. -/
def codeFailureTag (e : PyError) : Option CleanFailure :=
  if e.msg == "price data is None" || e.msg == "price data is empty" then
    some CleanFailure.emptyData
  else if e.msg == "insufficient history rows" then
    some CleanFailure.insufficientHistory
  else if e.msg == "no valid tickers left after cleaning" then
    some CleanFailure.noValidTickers
  else none

/-- Written from the words of the spec and claim C1, not from the source:
the cleaning algorithm as the fixed sequence of steps the spec lists,
parametrised by the step-1 failure test on a present table (the claim
says: fail if the table is absent or has zero rows; the amended reading
fails on an empty table, zero rows or zero columns).  Steps 2, 4 and 5
drop columns by a per-column predicate and record the dropped keys in
discovery order; the removed list is deduplicated keeping first
occurrences. -/
def cleanSpecSteps (step1Fail : PriceTable → Bool) (priceDf : Option PriceTable)
    (requested : List String) :
    Except CleanFailure (PriceTable × List String) :=
  match priceDf with
  | none => .error CleanFailure.emptyData
  | some df =>
    if step1Fail df then .error CleanFailure.emptyData
    else
      let afterDrop : PriceTable :=
        ⟨df.nRows, df.cols.filter (fun c => nonNullCount c.2 != 0)⟩
      let removedMissing :=
        requested.filter (fun t => !((afterDrop.cols.map Prod.fst).contains t))
      if afterDrop.nRows < 2 then .error CleanFailure.insufficientHistory
      else
        let minObs := max 2 (afterDrop.nRows / 4)
        let removedLow :=
          (afterDrop.cols.filter (fun c => nonNullCount c.2 < minObs)).map Prod.fst
        let afterLow : PriceTable :=
          ⟨afterDrop.nRows, afterDrop.cols.filter (fun c => !(nonNullCount c.2 < minObs))⟩
        let removedConst :=
          (afterLow.cols.filter (fun c => nuniqueDropna c.2 ≤ 1)).map Prod.fst
        let afterCv : PriceTable :=
          ⟨afterLow.nRows, afterLow.cols.filter (fun c => !(nuniqueDropna c.2 ≤ 1))⟩
        if afterCv.cols.length = 0 then .error CleanFailure.noValidTickers
        else .ok (afterCv, dedupKeepFirst (removedMissing ++ removedLow ++ removedConst))

/-- Bool test that a run of the embedded code and a run of the spec-side
pipeline agree: the same failure class on failure, and on success the same
table and the same set of removed tickers.  Claim C1 fixes no order on the
removed list; the order is the subject of claim C4. -/
def agreesWithSpec (code : Except PyError (PriceTable × List String))
    (spec : Except CleanFailure (PriceTable × List String)) : Bool :=
  match code, spec with
  | .error e, .error f => codeFailureTag e == some f
  | .ok (t, rem), .ok (t2, rem2) =>
    t == t2 && rem.all (fun s => rem2.contains s) && rem2.all (fun s => rem.contains s)
  | _, _ => false

/-- Ascending in the Python string order. -/
def strAscending (l : List String) : Prop :=
  l.Pairwise (fun a b => pyStrLe a b = true)

/-- Spec-side table after step 4, as a per-column predicate filter. -/
def specAfterLow (clean : PriceTable) : PriceTable :=
  ⟨clean.nRows,
    clean.cols.filter (fun c => !(decide (nonNullCount c.2 < min_obs_of clean)))⟩

/-- Spec-side table after step 5, as a per-column predicate filter. -/
def specAfterConst (d2 : PriceTable) : PriceTable :=
  ⟨d2.nRows, d2.cols.filter (fun c => !(decide (nuniqueDropna c.2 ≤ 1)))⟩

/-- Spec-side removal record in discovery order, before deduplication. -/
def specRemovedList (df : PriceTable) (req : List String) : List String :=
  req.filter (fun t => !((colNames (dropAllNanCols df)).contains t))
    ++ low_obs_of (dropAllNanCols df)
    ++ const_cols_of (specAfterLow (dropAllNanCols df))

/-- Projects a cleaning run onto the failure class of the spec taxonomy it
raises: none when it succeeds or raises an unclassified error. -/
def errTag (r : Except PyError (PriceTable × List String)) : Option CleanFailure :=
  match r with
  | .error e => codeFailureTag e
  | .ok _ => none

/-! Concrete frames used by counterexamples and witnesses. -/

/-- Frame with 4 rows: column A increasing, column B entirely missing. -/
def dfExampleAB : PriceTable :=
  ⟨4, [("A", [some 1, some 2, some 3, some 4]), ("B", [none, none, none, none])]⟩

/-- Frame with 2 rows and zero columns: pandas df.empty is true for it. -/
def dfNoCols : PriceTable := ⟨2, []⟩

/-- Frame with a single row. -/
def dfOneRow : PriceTable := ⟨1, [("A", [some 1])]⟩

/-- Frame for the removal order: column C usable, columns A and B entirely
missing. -/
def dfRemovalOrder : PriceTable :=
  ⟨2, [("C", [some 1, some 2]), ("A", [none, none]), ("B", [none, none])]⟩

/-! Embedding of the PortfolioOptimizer class (src/market_data/pyportfolio.py).
External library calls (yfinance rate fetch, pypfopt estimators, the convex
solver, the discrete-allocation LP) are modelled as oracle arguments. -/

/-- Valid holding periods for risk-free rate fetching
(pyportfolio.py lines 42 to 53). -/
def VALID_HOLDING_PERIODS : List String :=
  ["1 Mo", "3 Mo", "6 Mo", "1 Yr", "2 Yr", "3 Yr", "5 Yr", "7 Yr", "10 Yr", "30 Yr"]

/-- Mapping from treasury format to yfinance format
(pyportfolio.py lines 108 to 119). -/
def period_map : List (String × String) :=
  [("1 Mo", "1mo"), ("3 Mo", "3mo"), ("6 Mo", "6mo"), ("1 Yr", "1y"), ("2 Yr", "2y"),
   ("3 Yr", "3y"), ("5 Yr", "5y"), ("7 Yr", "7y"), ("10 Yr", "10y"), ("30 Yr", "30y")]

/-- Model of _convert_holding_period_to_yf_period (pyportfolio.py lines 96
to 120): dictionary lookup with default value 1mo. -/
def convert_holding_period_to_yf_period (holding_period : String) : String :=
  match period_map.lookup holding_period with
  | some p => p
  | none => "1mo"

/-- Outcome of the external call pb.get_riskfree_rate (pyportfolio.py line
84): a genuine number, a None result, a NaN result, or a raised
exception. -/
inductive RfFetchOutcome where
  | value (r : Rat)
  | noneValue
  | nanValue
  | raised
deriving DecidableEq

/-- Model of _fetch_rf_rate (pyportfolio.py lines 81 to 94): a None or NaN
result and a raised exception all degrade to the default 0.02; a genuine
number is returned as is.  The function never propagates a failure. -/
def fetchRfRate : RfFetchOutcome → Rat
  | .value r => r
  | .noneValue => mkRat 2 100
  | .nanValue => mkRat 2 100
  | .raised => mkRat 2 100

/-- State of a PortfolioOptimizer instance: the price data, the holding
period, the matching yfinance period, and the risk-free rate
(pyportfolio.py lines 29 to 79). -/
structure PortfolioOptimizer where
  data : PriceTable
  holding_period : String
  period : String
  rf_rate : Rat
deriving DecidableEq

/-- Model of PortfolioOptimizer.__init__ (pyportfolio.py lines 55 to 79):
validate the holding period before any state is built, store the converted
yfinance period, and take the risk-free rate from the fetch when no manual
override is given.  The message of the raised ValueError interpolates the
valid list in the source; the static text is modelled. -/
def PortfolioOptimizer.init (data : PriceTable) (holding_period : String)
    (rf_rate : Option Rat) (rf_fetch : RfFetchOutcome) :
    Except PyError PortfolioOptimizer :=
  if !(VALID_HOLDING_PERIODS.contains holding_period) then
    .error (PyError.mk "ValueError" "holding_period must be one of VALID_HOLDING_PERIODS")
  else
    .ok ⟨data, holding_period, convert_holding_period_to_yf_period holding_period,
      match rf_rate with
      | none => fetchRfRate rf_fetch
      | some r => r⟩

/-- Model of set_rf_rate (pyportfolio.py lines 122 to 124). -/
def PortfolioOptimizer.set_rf_rate (o : PortfolioOptimizer) (r : Rat) :
    PortfolioOptimizer :=
  ⟨o.data, o.holding_period, o.period, r⟩

/-- Model of set_holding_period (pyportfolio.py lines 126 to 141): validate
before mutating, then update the period and refetch the risk-free rate. -/
def PortfolioOptimizer.set_holding_period (o : PortfolioOptimizer)
    (holding_period : String) (rf_fetch : RfFetchOutcome) :
    Except PyError PortfolioOptimizer :=
  if !(VALID_HOLDING_PERIODS.contains holding_period) then
    .error (PyError.mk "ValueError" "holding_period must be one of VALID_HOLDING_PERIODS")
  else
    .ok ⟨o.data, holding_period, convert_holding_period_to_yf_period holding_period,
      fetchRfRate rf_fetch⟩

/-- Model of get_period (pyportfolio.py lines 143 to 145). -/
def PortfolioOptimizer.get_period (o : PortfolioOptimizer) : String :=
  o.period

/-- Model of get_rf_rate (pyportfolio.py lines 147 to 149). -/
def PortfolioOptimizer.get_rf_rate (o : PortfolioOptimizer) : Rat :=
  o.rf_rate

/-- Expected-return vector: ticker to annualized expected return, none for
a NaN entry. -/
abbrev ExpReturns := List (String × Option Rat)

/-- Covariance matrix, kept abstract as rows by ticker; only produced and
consumed by the library oracles. -/
abbrev CovMatrix := List (String × List (Option Rat))

/-- Model of get_expected_returns (pyportfolio.py lines 151 to 169).  The
three pypfopt estimators are oracle arguments; an unknown type string
raises ValueError (the quotes of the source message around the method
names are elided). -/
def PortfolioOptimizer.get_expected_returns
    (meanF capmF emaF : PriceTable → ExpReturns)
    (o : PortfolioOptimizer) (type : String) : Except PyError ExpReturns :=
  if type == "mean" then .ok (meanF o.data)
  else if type == "capm" then .ok (capmF o.data)
  else if type == "ema" then .ok (emaF o.data)
  else .error (PyError.mk "ValueError" "Invalid type. Use mean, capm, or ema.")

/-- Model of get_covariance_matrix (pyportfolio.py lines 171 to 193); freq
defaults to 252 at call sites.  The three pypfopt estimators are oracle
arguments; an unknown type string raises ValueError. -/
def PortfolioOptimizer.get_covariance_matrix
    (ledoitF semicovF expCovF : PriceTable → Nat → CovMatrix)
    (o : PortfolioOptimizer) (type : String) (freq : Nat) :
    Except PyError CovMatrix :=
  if type == "ledoit_wolf" then .ok (ledoitF o.data freq)
  else if type == "semicovariance" then .ok (semicovF o.data freq)
  else if type == "exponential" then .ok (expCovF o.data freq)
  else .error (PyError.mk "ValueError"
    "Invalid type. Use ledoit_wolf, semicovariance, or exponential.")

/-- Portfolio weight mapping: ticker to weight. -/
abbrev Weights := List (String × Rat)

/-- Nearest integer with ties to even, the rounding of numpy round.
Written with integer arithmetic on the reduced fraction because the
library rational multiplication does not reduce in the kernel. -/
def roundHalfEven (q : Rat) : Int :=
  let f := ⌊q⌋
  let r := q.num - f * (q.den : Int)
  if 2 * r < (q.den : Int) then f
  else if (q.den : Int) < 2 * r then f + 1
  else if f % 2 = 0 then f else f + 1

/-- Rounding to 3 decimal places, the rounding=3 of clean_weights; the
scaling by 1000 is written through mkRat on the reduced fraction. -/
def roundTo3 (v : Rat) : Rat :=
  mkRat (roundHalfEven (mkRat (v.num * 1000) v.den)) 1000

/-- Modelled from the pypfopt helper clean_weights(cutoff=1e-4, rounding=3)
called at pyportfolio.py line 235: weights below the cutoff in absolute
value are set to zero, then every weight is rounded to 3 decimals.  The
solver weights are exact rationals here, so the cutoff test and the
rounding are exact. -/
def clean_weightsLib (w : Weights) : Weights :=
  (w.map (fun kv => (kv.1, if |kv.2| < mkRat 1 10000 then 0 else kv.2))).map
    (fun kv => (kv.1, roundTo3 kv.2))

/-- Written from the words of the spec and claim C5, not from the source:
the raw weights with entries below a 1e-4 cutoff zeroed and remaining
values rounded to 3 decimals, then filtered to exclude exact-zero
entries.  Below the cutoff means in absolute value; under the default
long-only bounds the solver weights are non-negative and the readings
coincide. -/
def specCleanedWeights (raw : Weights) : Weights :=
  (raw.map (fun kv =>
    (kv.1, if |kv.2| < mkRat 1 10000 then 0 else roundTo3 kv.2))).filter
    (fun kv => kv.2 != 0)

/-- Sum of rationals, written with mkRat because the library rational
addition does not reduce in the kernel. -/
def ratAdd2 (a b : Rat) : Rat :=
  mkRat (a.num * (b.den : Int) + b.num * (a.den : Int)) (a.den * b.den)

/-- Sum of a list of rationals. -/
def ratListSum (l : List Rat) : Rat :=
  l.foldr ratAdd2 0

/-- Arithmetic mean of a list of rationals, none when empty: the sum
divided by the length, written through mkRat. -/
def ratListMean (l : List Rat) : Option Rat :=
  if l.isEmpty then none
  else some (mkRat (ratListSum l).num ((ratListSum l).den * l.length))

/-- The diagnostic bundle printed by the except branch of get_weights
(pyportfolio.py lines 240 to 256), one field per print line: method,
solver, risk-free rate, number of assets, expected-returns range min and
max (line 247, pandas min and max skip NaN entries), expected-returns mean
(line 248), any NaN in returns (line 249), any NaN in the covariance
matrix (line 250). -/
structure Diagnostics where
  method : String
  solver : String
  rfRate : Rat
  nAssets : Nat
  returnsMin : Option Rat
  returnsMax : Option Rat
  returnsMean : Option Rat
  anyNaNReturns : Bool
  anyNaNCov : Bool
deriving DecidableEq

/-- Builds the printed diagnostic bundle from the inputs of get_weights. -/
def mkDiagnostics (method solver : String) (rfRate : Rat) (mu : ExpReturns)
    (covHasNaN : Bool) : Diagnostics :=
  ⟨method, solver, rfRate, mu.length,
    (mu.filterMap Prod.snd).min?, (mu.filterMap Prod.snd).max?,
    ratListMean (mu.filterMap Prod.snd),
    mu.any (fun kv => kv.2 == none), covHasNaN⟩

/-- The four optimization methods get_weights dispatches on
(pyportfolio.py lines 217 to 228). -/
def validOptMethod (method : String) : Bool :=
  method == "max_sharpe" || method == "min_volatility"
    || method == "efficient_return" || method == "efficient_risk"

/-- Model of the try block of get_weights (pyportfolio.py lines 212 to
237).  construct is the outcome of EfficientFrontier(mu, S, solver=solver)
together with the conditional L2 add_objective call (lines 213 to 215);
solve is the outcome of the dispatched optimizer call for the chosen
method, which for max_sharpe receives self.rf_rate (lines 217 to 228).  An
unrecognized method raises ValueError inside the try block (lines 229 to
232; quotes of the source message elided).  With round true the weights
are replaced by clean_weights(cutoff=1e-4, rounding=3) (line 235), and wts
drops the exact-zero entries (line 236).  The source returns the triple
(portfolio_obj, weights, wts); the library handle portfolio_obj carries no
data in this model, so the pair (weights, wts) is returned. -/
def getWeightsTry (construct : Except PyError Unit)
    (solve : Except PyError Weights) (roundW : Bool) (method : String) :
    Except PyError (Weights × Weights) :=
  match construct with
  | .error e => .error e
  | .ok _ =>
    match (if validOptMethod method then solve
        else .error (PyError.mk "ValueError"
          "Invalid method. Currently only max_sharpe, min_volatility, efficient_return, and efficient_risk are supported.")) with
    | .error e => .error e
    | .ok weights =>
      let weights2 := if roundW then clean_weightsLib weights else weights
      let wts := weights2.filter (fun kv => kv.2 != 0)
      .ok (weights2, wts)

/-- Model of get_weights with its except branch (pyportfolio.py lines 195
to 257): on any failure inside the try block the diagnostics are printed
and the original exception is re-raised unchanged (the bare raise at line
257).  The second component of the result models the printed diagnostic
bundle, some exactly when the except branch ran. -/
def PortfolioOptimizer.get_weights (o : PortfolioOptimizer)
    (mu : ExpReturns) (covHasNaN : Bool)
    (construct : Except PyError Unit) (solve : Except PyError Weights)
    (roundW : Bool) (method : String) (solver : String) :
    Except PyError (Weights × Weights) × Option Diagnostics :=
  match getWeightsTry construct solve roundW method with
  | .ok r => (.ok r, none)
  | .error e => (.error e, some (mkDiagnostics method solver o.rf_rate mu covHasNaN))

/-- Discrete share allocation: ticker to whole share count. -/
abbrev SharesMap := List (String × Nat)

set_option linter.unusedVariables false in
/-- Model of get_allocation (pyportfolio.py lines 280 to 296).  The
library calls get_latest_prices(self.data), DiscreteAllocation(weights,
latest_prices, total_portfolio_value=port_value) and lp_portfolio() are
abstracted by the lpResult oracle, the pair (allocation, leftover) the LP
returns at line 295.  The method returns only the allocation dictionary
and discards the leftover cash. -/
def PortfolioOptimizer.get_allocation (o : PortfolioOptimizer)
    (weights : Weights) (port_value : Rat) (lpResult : SharesMap × Rat) :
    SharesMap :=
  lpResult.1

/-- Concrete optimizer instance used by witnesses. -/
def optExample : PortfolioOptimizer :=
  ⟨⟨2, [("A", [some 1, some 2])]⟩, "1 Yr", "1y", mkRat 2 100⟩

/-- Reachability of an optimizer state through the public construction and
mutation operations: built by init, or obtained from a reachable state by
a successful set_holding_period or by set_rf_rate. -/
inductive ReachableOptimizer : PortfolioOptimizer → Prop where
  | made (data : PriceTable) (hp : String) (rf : Option Rat)
      (rf_fetch : RfFetchOutcome) (o : PortfolioOptimizer) :
      PortfolioOptimizer.init data hp rf rf_fetch = .ok o → ReachableOptimizer o
  | resetHolding (o o2 : PortfolioOptimizer) (hp : String)
      (rf_fetch : RfFetchOutcome) :
      ReachableOptimizer o → o.set_holding_period hp rf_fetch = .ok o2 →
      ReachableOptimizer o2
  | resetRf (o : PortfolioOptimizer) (r : Rat) :
      ReachableOptimizer o → ReachableOptimizer (o.set_rf_rate r)

/-! Helper lemmas about the pipeline steps. -/

lemma contains_eq_true_iff {l : List String} {a : String} :
    l.contains a = true ↔ a ∈ l := by
  simp [List.contains]

lemma nRows_dropAllNanCols (df : PriceTable) :
    (dropAllNanCols df).nRows = df.nRows := rfl

lemma nRows_dropColsByName (df : PriceTable) (names : List String) :
    (dropColsByName df names).nRows = df.nRows := rfl

lemma nRows_afterLowObs (clean : PriceTable) :
    (afterLowObs clean).nRows = clean.nRows := by
  unfold afterLowObs
  split <;> rfl

lemma nRows_afterConst (df2 : PriceTable) :
    (afterConst df2).nRows = df2.nRows := by
  unfold afterConst
  split <;> rfl

lemma nRows_finalClean (df : PriceTable) :
    (finalClean df).nRows = df.nRows := by
  unfold finalClean
  rw [nRows_afterConst, nRows_afterLowObs, nRows_dropAllNanCols]

lemma mem_dropAllNanCols {df : PriceTable} {c : String × List (Option Rat)}
    (h : c ∈ (dropAllNanCols df).cols) : c ∈ df.cols ∧ nonNullCount c.2 ≠ 0 := by
  unfold dropAllNanCols at h
  simp only [List.mem_filter, bne_iff_ne, ne_eq] at h
  exact h

lemma mem_afterLowObs {clean : PriceTable} {c : String × List (Option Rat)}
    (h : c ∈ (afterLowObs clean).cols) :
    c ∈ clean.cols ∧ ¬(nonNullCount c.2 < min_obs_of clean) := by
  unfold afterLowObs at h
  split at h
  case isTrue hemp =>
    refine ⟨h, ?_⟩
    intro hlt
    have : c.1 ∈ low_obs_of clean := by
      unfold low_obs_of
      exact List.mem_map_of_mem Prod.fst (List.mem_filter.mpr ⟨h, by simpa using hlt⟩)
    rw [List.isEmpty_iff.mp hemp] at this
    exact absurd this (List.not_mem_nil c.1)
  case isFalse hemp =>
    unfold dropColsByName at h
    have h2 := List.mem_filter.mp h
    refine ⟨h2.1, ?_⟩
    intro hlt
    have hmem : c.1 ∈ low_obs_of clean := by
      unfold low_obs_of
      exact List.mem_map_of_mem Prod.fst (List.mem_filter.mpr ⟨h2.1, by simpa using hlt⟩)
    have := h2.2
    rw [Bool.not_eq_eq_eq_not, Bool.not_true] at this
    have hc : (low_obs_of clean).contains c.1 = true := contains_eq_true_iff.mpr hmem
    rw [this] at hc
    exact Bool.false_ne_true hc

lemma mem_afterConst {df2 : PriceTable} {c : String × List (Option Rat)}
    (h : c ∈ (afterConst df2).cols) :
    c ∈ df2.cols ∧ ¬(nuniqueDropna c.2 ≤ 1) := by
  unfold afterConst at h
  split at h
  case isTrue hemp =>
    refine ⟨h, ?_⟩
    intro hle
    have : c.1 ∈ const_cols_of df2 := by
      unfold const_cols_of
      exact List.mem_map_of_mem Prod.fst (List.mem_filter.mpr ⟨h, by simpa using hle⟩)
    rw [List.isEmpty_iff.mp hemp] at this
    exact absurd this (List.not_mem_nil c.1)
  case isFalse hemp =>
    unfold dropColsByName at h
    have h2 := List.mem_filter.mp h
    refine ⟨h2.1, ?_⟩
    intro hle
    have hmem : c.1 ∈ const_cols_of df2 := by
      unfold const_cols_of
      exact List.mem_map_of_mem Prod.fst (List.mem_filter.mpr ⟨h2.1, by simpa using hle⟩)
    have := h2.2
    rw [Bool.not_eq_eq_eq_not, Bool.not_true] at this
    have hc : (const_cols_of df2).contains c.1 = true := contains_eq_true_iff.mpr hmem
    rw [this] at hc
    exact Bool.false_ne_true hc

lemma mem_finalClean {df : PriceTable} {c : String × List (Option Rat)}
    (h : c ∈ (finalClean df).cols) :
    c ∈ df.cols ∧ nonNullCount c.2 ≠ 0
      ∧ ¬(nonNullCount c.2 < min_obs_of (dropAllNanCols df))
      ∧ ¬(nuniqueDropna c.2 ≤ 1) := by
  unfold finalClean at h
  obtain ⟨h1, hq⟩ := mem_afterConst h
  obtain ⟨h2, hlow⟩ := mem_afterLowObs h1
  obtain ⟨h3, hnn⟩ := mem_dropAllNanCols h2
  exact ⟨h3, hnn, hlow, hq⟩

lemma ite_append (l r : List String) :
    (if l.isEmpty then r else r ++ l) = r ++ l := by
  cases l
  · simp
  · simp

lemma vacp_none (req : List String) :
    validate_and_clean_prices none req =
      .error (PyError.mk "ValueError" "price data is None") := rfl

lemma vacp_some (df : PriceTable) (req : List String) :
    validate_and_clean_prices (some df) req =
      if dfEmpty df then .error (PyError.mk "ValueError" "price data is empty")
      else if (dropAllNanCols df).nRows < 2 then
        .error (PyError.mk "ValueError" "insufficient history rows")
      else if dfEmpty (finalClean df) || decide ((finalClean df).cols.length < 1) then
        .error (PyError.mk "ValueError" "no valid tickers left after cleaning")
      else .ok (finalClean df, pySortedSet (removedAccum df req)) := by
  simp only [validate_and_clean_prices]
  refine if_congr Iff.rfl rfl (if_congr Iff.rfl rfl (if_congr Iff.rfl rfl ?_))
  rw [ite_append, ite_append]
  rfl

/-! Order facts about the Python string comparison and the sort built on
it: the comparison is asymmetric, connected and transitive, the sort is a
permutation and produces an ascending list. -/

lemma char_toNat_inj {a b : Char} (h : a.toNat = b.toNat) : a = b := by
  apply Char.ext
  apply UInt32.ext
  exact h

lemma strLtCore_asymm (a : List Char) :
    ∀ b : List Char, strLtCore a b = true → strLtCore b a = false := by
  induction a with
  | nil =>
    intro b h
    cases b with
    | nil => simp [strLtCore]
    | cons y ys => simp [strLtCore]
  | cons x xs ih =>
    intro b h
    cases b with
    | nil => simp [strLtCore] at h
    | cons y ys =>
      simp only [strLtCore] at h ⊢
      by_cases h1 : x.toNat < y.toNat
      · have h2 : ¬ y.toNat < x.toNat := Nat.lt_asymm h1
        simp [h1, h2]
      · by_cases h2 : y.toNat < x.toNat
        · simp [h1, h2] at h
        · simp only [h1, h2, if_false] at h ⊢
          exact ih ys h

lemma strLtCore_conn (a : List Char) :
    ∀ b : List Char, strLtCore a b = false → strLtCore b a = false → a = b := by
  induction a with
  | nil =>
    intro b hab hba
    cases b with
    | nil => rfl
    | cons y ys => simp [strLtCore] at hab
  | cons x xs ih =>
    intro b hab hba
    cases b with
    | nil => simp [strLtCore] at hba
    | cons y ys =>
      simp only [strLtCore] at hab hba
      by_cases h1 : x.toNat < y.toNat
      · simp [h1] at hab
      · by_cases h2 : y.toNat < x.toNat
        · simp [h1, h2] at hba
        · simp only [h1, h2, if_false] at hab hba
          have hxy : x = y :=
            char_toNat_inj (Nat.le_antisymm (Nat.not_lt.mp h2) (Nat.not_lt.mp h1))
          rw [hxy, ih ys hab hba]

lemma strLtCore_trans (a : List Char) :
    ∀ b c : List Char, strLtCore a b = true → strLtCore b c = true →
      strLtCore a c = true := by
  induction a with
  | nil =>
    intro b c h1 h2
    cases c with
    | nil =>
      cases b with
      | nil => simp [strLtCore] at h1
      | cons y ys => simp [strLtCore] at h2
    | cons z zs => simp [strLtCore]
  | cons x xs ih =>
    intro b c h1 h2
    cases b with
    | nil => simp [strLtCore] at h1
    | cons y ys =>
      cases c with
      | nil => simp [strLtCore] at h2
      | cons z zs =>
        simp only [strLtCore] at h1 h2 ⊢
        by_cases hxy : x.toNat < y.toNat
        · by_cases hyz : y.toNat < z.toNat
          · simp [Nat.lt_trans hxy hyz]
          · by_cases hzy : z.toNat < y.toNat
            · simp [hyz, hzy] at h2
            · have : y = z :=
                char_toNat_inj (Nat.le_antisymm (Nat.not_lt.mp hzy) (Nat.not_lt.mp hyz))
              rw [← this]
              simp [hxy]
        · by_cases hyx : y.toNat < x.toNat
          · simp [hxy, hyx] at h1
          · have hxey : x = y :=
              char_toNat_inj (Nat.le_antisymm (Nat.not_lt.mp hyx) (Nat.not_lt.mp hxy))
            simp only [hxy, hyx, if_false] at h1
            by_cases hyz : y.toNat < z.toNat
            · rw [hxey]
              simp [hyz]
            · by_cases hzy : z.toNat < y.toNat
              · simp [hyz, hzy] at h2
              · simp only [hyz, hzy, if_false] at h2
                rw [hxey]
                simp only [hyz, hzy, if_false]
                exact ih ys zs h1 h2

lemma pyStrLe_refl (a : String) : pyStrLe a a = true := by
  unfold pyStrLe
  by_cases h : strLtCore a.data a.data = true
  · have := strLtCore_asymm a.data a.data h
    rw [this] at h
    exact absurd h (by simp)
  · simp [Bool.not_eq_true] at h
    simp [h]

lemma pyStrLe_total (a b : String) : pyStrLe a b = true ∨ pyStrLe b a = true := by
  unfold pyStrLe
  by_cases h : strLtCore b.data a.data = true
  · right
    rw [strLtCore_asymm b.data a.data h]
    rfl
  · left
    simp [Bool.not_eq_true] at h
    simp [h]

lemma pyStrLe_trans {a b c : String} (h1 : pyStrLe a b = true)
    (h2 : pyStrLe b c = true) : pyStrLe a c = true := by
  unfold pyStrLe at h1 h2 ⊢
  rw [Bool.not_eq_eq_eq_not, Bool.not_true] at h1 h2
  rw [Bool.not_eq_eq_eq_not, Bool.not_true]
  by_cases hca : strLtCore c.data a.data = true
  · by_cases hab : strLtCore a.data b.data = true
    · have := strLtCore_trans c.data a.data b.data hca hab
      rw [this] at h2
      exact absurd h2 (by simp)
    · simp [Bool.not_eq_true] at hab
      have : a.data = b.data := strLtCore_conn a.data b.data hab h1
      rw [← this] at h2
      rw [h2] at hca
      exact absurd hca (by simp)
  · simp [Bool.not_eq_true] at hca
    exact hca

lemma mem_insertStr {a x : String} {l : List String} :
    a ∈ insertStr x l ↔ a = x ∨ a ∈ l := by
  induction l with
  | nil => simp [insertStr]
  | cons y ys ih =>
    unfold insertStr
    by_cases h : pyStrLe x y = true
    · rw [if_pos h]
      simp
    · rw [if_neg h]
      simp only [List.mem_cons, ih]
      tauto

lemma perm_insertStr (x : String) (l : List String) :
    (insertStr x l).Perm (x :: l) := by
  induction l with
  | nil => exact List.Perm.refl _
  | cons y ys ih =>
    unfold insertStr
    by_cases h : pyStrLe x y = true
    · simp [h]
    · simp only [h, if_false]
      exact (ih.cons y).trans (List.Perm.swap x y ys)

lemma perm_pySortStrings (l : List String) : (pySortStrings l).Perm l := by
  induction l with
  | nil => exact List.Perm.refl _
  | cons x xs ih =>
    have : pySortStrings (x :: xs) = insertStr x (pySortStrings xs) := rfl
    rw [this]
    exact (perm_insertStr x (pySortStrings xs)).trans (ih.cons x)

lemma mem_pySortedSet {a : String} {l : List String} :
    a ∈ pySortedSet l ↔ a ∈ l := by
  unfold pySortedSet
  rw [(perm_pySortStrings l.dedup).mem_iff, List.mem_dedup]

lemma nodup_pySortedSet (l : List String) : (pySortedSet l).Nodup := by
  unfold pySortedSet
  exact (perm_pySortStrings l.dedup).nodup_iff.mpr (List.nodup_dedup l)

lemma ascending_insertStr {x : String} {l : List String} (h : strAscending l) :
    strAscending (insertStr x l) := by
  induction l with
  | nil =>
    unfold insertStr strAscending
    simp
  | cons y ys ih =>
    have hcons := List.pairwise_cons.mp h
    unfold insertStr
    by_cases hxy : pyStrLe x y = true
    · rw [if_pos hxy]
      refine List.pairwise_cons.mpr ⟨?_, h⟩
      intro z hz
      rcases List.mem_cons.mp hz with hzy | hzys
      · rw [hzy]; exact hxy
      · exact pyStrLe_trans hxy (hcons.1 z hzys)
    · rw [if_neg hxy]
      refine List.pairwise_cons.mpr ⟨?_, ih hcons.2⟩
      intro z hz
      rcases mem_insertStr.mp hz with hzx | hzys
      · rw [hzx]
        rcases pyStrLe_total x y with hx | hy
        · exact absurd hx hxy
        · exact hy
      · exact hcons.1 z hzys

lemma ascending_pySortStrings (l : List String) : strAscending (pySortStrings l) := by
  induction l with
  | nil => exact List.Pairwise.nil
  | cons x xs ih => exact ascending_insertStr ih

lemma ascending_pySortedSet (l : List String) : strAscending (pySortedSet l) :=
  ascending_pySortStrings l.dedup

lemma mem_dedupKeepFirst {a : String} {l : List String} :
    a ∈ dedupKeepFirst l ↔ a ∈ l := by
  induction l with
  | nil => simp [dedupKeepFirst]
  | cons x xs ih =>
    unfold dedupKeepFirst
    simp only [List.mem_cons, List.mem_filter, ih, bne_iff_ne, ne_eq]
    constructor
    · rintro (h | ⟨h, _⟩)
      · exact Or.inl h
      · exact Or.inr h
    · rintro (h | h)
      · exact Or.inl h
      · by_cases hax : a = x
        · exact Or.inl hax
        · exact Or.inr ⟨h, hax⟩

/-! With unique column keys (the PriceTable invariant of the spec), the
name-based drops of the source coincide with per-column predicate filters. -/

lemma keys_inj {cols : List (String × List (Option Rat))}
    (hnd : (cols.map Prod.fst).Nodup) {c c' : String × List (Option Rat)}
    (hc : c ∈ cols) (hc' : c' ∈ cols) (he : c.1 = c'.1) : c = c' :=
  List.inj_on_of_nodup_map hnd hc hc' he

lemma nodup_keys_filter {cols : List (String × List (Option Rat))}
    (h : (cols.map Prod.fst).Nodup) (p : String × List (Option Rat) → Bool) :
    ((cols.filter p).map Prod.fst).Nodup :=
  List.Nodup.sublist ((List.filter_sublist cols).map Prod.fst) h

lemma nodup_colNames_dropAllNanCols {df : PriceTable}
    (h : (colNames df).Nodup) : (colNames (dropAllNanCols df)).Nodup :=
  nodup_keys_filter h _

lemma nodup_colNames_afterLowObs {clean : PriceTable}
    (h : (colNames clean).Nodup) : (colNames (afterLowObs clean)).Nodup := by
  unfold afterLowObs
  split
  · exact h
  · exact nodup_keys_filter h _

lemma afterLowObs_eq_filter {clean : PriceTable} (hnd : (colNames clean).Nodup) :
    afterLowObs clean =
      ⟨clean.nRows,
        clean.cols.filter (fun c => !(decide (nonNullCount c.2 < min_obs_of clean)))⟩ := by
  unfold afterLowObs
  by_cases hemp : (low_obs_of clean).isEmpty
  · rw [if_pos hemp]
    have h0 : ∀ c ∈ clean.cols, ¬(nonNullCount c.2 < min_obs_of clean) := by
      intro c hc hlt
      have hm : c.1 ∈ low_obs_of clean :=
        List.mem_map_of_mem Prod.fst (List.mem_filter.mpr ⟨hc, by simpa using hlt⟩)
      rw [List.isEmpty_iff.mp hemp] at hm
      exact absurd hm (List.not_mem_nil c.1)
    have hf : clean.cols.filter
        (fun c => !(decide (nonNullCount c.2 < min_obs_of clean))) = clean.cols := by
      apply List.filter_eq_self.mpr
      intro c hc
      simpa using h0 c hc
    rw [hf]
  · rw [if_neg hemp]
    unfold dropColsByName
    have hf : ∀ c ∈ clean.cols,
        (!((low_obs_of clean).contains c.1)) =
          (!(decide (nonNullCount c.2 < min_obs_of clean))) := by
      intro c hc
      by_cases hp : nonNullCount c.2 < min_obs_of clean
      · have hm : c.1 ∈ low_obs_of clean :=
          List.mem_map_of_mem Prod.fst (List.mem_filter.mpr ⟨hc, by simpa using hp⟩)
        rw [contains_eq_true_iff.mpr hm]
        simp [hp]
      · have hnm : c.1 ∉ low_obs_of clean := by
          intro hmem
          unfold low_obs_of at hmem
          obtain ⟨c', hc', he⟩ := List.mem_map.mp hmem
          have hcc : c' = c := keys_inj hnd (List.mem_filter.mp hc').1 hc he
          have hpc := (List.mem_filter.mp hc').2
          rw [hcc] at hpc
          simp only [decide_eq_true_eq] at hpc
          exact hp hpc
        have hcf : (low_obs_of clean).contains c.1 = false := by
          rw [← Bool.not_eq_true]
          intro hct
          exact hnm (contains_eq_true_iff.mp hct)
        rw [hcf]
        simp [hp]
    exact congrArg (PriceTable.mk clean.nRows) (List.filter_congr hf)

lemma afterConst_eq_filter {df2 : PriceTable} (hnd : (colNames df2).Nodup) :
    afterConst df2 =
      ⟨df2.nRows, df2.cols.filter (fun c => !(decide (nuniqueDropna c.2 ≤ 1)))⟩ := by
  unfold afterConst
  by_cases hemp : (const_cols_of df2).isEmpty
  · rw [if_pos hemp]
    have h0 : ∀ c ∈ df2.cols, ¬(nuniqueDropna c.2 ≤ 1) := by
      intro c hc hle
      have hm : c.1 ∈ const_cols_of df2 :=
        List.mem_map_of_mem Prod.fst (List.mem_filter.mpr ⟨hc, by simpa using hle⟩)
      rw [List.isEmpty_iff.mp hemp] at hm
      exact absurd hm (List.not_mem_nil c.1)
    have hf : df2.cols.filter
        (fun c => !(decide (nuniqueDropna c.2 ≤ 1))) = df2.cols := by
      apply List.filter_eq_self.mpr
      intro c hc
      simpa using h0 c hc
    rw [hf]
  · rw [if_neg hemp]
    unfold dropColsByName
    have hf : ∀ c ∈ df2.cols,
        (!((const_cols_of df2).contains c.1)) =
          (!(decide (nuniqueDropna c.2 ≤ 1))) := by
      intro c hc
      by_cases hp : nuniqueDropna c.2 ≤ 1
      · have hm : c.1 ∈ const_cols_of df2 :=
          List.mem_map_of_mem Prod.fst (List.mem_filter.mpr ⟨hc, by simpa using hp⟩)
        rw [contains_eq_true_iff.mpr hm]
        simp [hp]
      · have hnm : c.1 ∉ const_cols_of df2 := by
          intro hmem
          unfold const_cols_of at hmem
          obtain ⟨c', hc', he⟩ := List.mem_map.mp hmem
          have hcc : c' = c := keys_inj hnd (List.mem_filter.mp hc').1 hc he
          have hpc := (List.mem_filter.mp hc').2
          rw [hcc] at hpc
          simp only [decide_eq_true_eq] at hpc
          exact hp hpc
        have hcf : (const_cols_of df2).contains c.1 = false := by
          rw [← Bool.not_eq_true]
          intro hct
          exact hnm (contains_eq_true_iff.mp hct)
        rw [hcf]
        simp [hp]
    exact congrArg (PriceTable.mk df2.nRows) (List.filter_congr hf)

lemma cleanSpecSteps_some (df : PriceTable) (req : List String) :
    cleanSpecSteps dfEmpty (some df) req =
      if dfEmpty df then .error CleanFailure.emptyData
      else if df.nRows < 2 then .error CleanFailure.insufficientHistory
      else if (specAfterConst (specAfterLow (dropAllNanCols df))).cols.length = 0 then
        .error CleanFailure.noValidTickers
      else
        .ok (specAfterConst (specAfterLow (dropAllNanCols df)),
          dedupKeepFirst (specRemovedList df req)) := rfl

/-- C1, amended: the cleaning code realises exactly the fixed step sequence
of the claim, with one correction forced by the counterexample below: the
first failure test is not only on an absent table or zero rows but on an
empty frame, pandas meaning zero rows or zero columns.  For every input
with unique column keys, the code and the spec pipeline agree: the same
failure class when failing, and on success the same cleaned table and the
same set of removed tickers. -/
theorem C1_cleaning_pipeline (req : List String) :
    agreesWithSpec (validate_and_clean_prices none req)
      (cleanSpecSteps dfEmpty none req) = true
  ∧ ∀ df : PriceTable, (colNames df).Nodup →
      agreesWithSpec (validate_and_clean_prices (some df) req)
        (cleanSpecSteps dfEmpty (some df) req) = true := by
  constructor
  · rfl
  · intro df hnd
    rw [vacp_some, cleanSpecSteps_some, nRows_dropAllNanCols]
    by_cases h1 : dfEmpty df = true
    · rw [if_pos h1, if_pos h1]
      decide
    · rw [if_neg h1, if_neg h1]
      by_cases h2 : df.nRows < 2
      · rw [if_pos h2, if_pos h2]
        decide
      · rw [if_neg h2, if_neg h2]
        have hnd1 : (colNames (dropAllNanCols df)).Nodup :=
          nodup_colNames_dropAllNanCols hnd
        have e1 : afterLowObs (dropAllNanCols df) = specAfterLow (dropAllNanCols df) :=
          afterLowObs_eq_filter hnd1
        have hnd2 : (colNames (afterLowObs (dropAllNanCols df))).Nodup :=
          nodup_colNames_afterLowObs hnd1
        have e2 : afterConst (afterLowObs (dropAllNanCols df)) =
            specAfterConst (specAfterLow (dropAllNanCols df)) := by
          rw [afterConst_eq_filter hnd2, e1]
          rfl
        rw [show finalClean df = afterConst (afterLowObs (dropAllNanCols df)) from rfl, e2]
        have hRR : removedAccum df req = specRemovedList df req := by
          unfold removedAccum specRemovedList
          rw [e1]
        by_cases h3 : (specAfterConst (specAfterLow (dropAllNanCols df))).cols.length = 0
        · have hcode :
              (dfEmpty (specAfterConst (specAfterLow (dropAllNanCols df)))
                || decide ((specAfterConst (specAfterLow (dropAllNanCols df))).cols.length < 1)) = true := by
            rw [Bool.or_eq_true]
            right
            rw [decide_eq_true_eq]
            omega
          rw [if_pos hcode, if_pos h3]
          decide
        · have hlen : ¬((specAfterConst (specAfterLow (dropAllNanCols df))).cols.length < 1) := by
            omega
          have hne : (specAfterConst (specAfterLow (dropAllNanCols df))).cols ≠ [] := by
            intro hnil
            exact h3 (by rw [hnil]; rfl)
          have hrows : (specAfterConst (specAfterLow (dropAllNanCols df))).nRows = df.nRows := rfl
          have hcond :
              (dfEmpty (specAfterConst (specAfterLow (dropAllNanCols df)))
                || decide ((specAfterConst (specAfterLow (dropAllNanCols df))).cols.length < 1)) = false := by
            rw [Bool.or_eq_false_iff]
            constructor
            · unfold dfEmpty
              rw [Bool.or_eq_false_iff]
              constructor
              · rw [hrows]
                simp only [beq_eq_false_iff_ne, ne_eq]
                omega
              · simp [hne]
            · simp [hlen]
          rw [if_neg (by rw [hcond]; simp), if_neg h3]
          simp only [agreesWithSpec, Bool.and_eq_true, beq_self_eq_true, true_and,
            List.all_eq_true]
          constructor
          · intro s hs
            rw [contains_eq_true_iff, mem_dedupKeepFirst, ← hRR]
            exact mem_pySortedSet.mp hs
          · intro s hs
            rw [contains_eq_true_iff, mem_pySortedSet, hRR]
            exact mem_dedupKeepFirst.mp hs

lemma tag_none_msg :
    codeFailureTag (PyError.mk "ValueError" "price data is None") =
      some CleanFailure.emptyData := by decide

lemma tag_empty_msg :
    codeFailureTag (PyError.mk "ValueError" "price data is empty") =
      some CleanFailure.emptyData := by decide

lemma tag_rows_msg :
    codeFailureTag (PyError.mk "ValueError" "insufficient history rows") =
      some CleanFailure.insufficientHistory := by decide

lemma tag_novalid_msg :
    codeFailureTag (PyError.mk "ValueError" "no valid tickers left after cleaning") =
      some CleanFailure.noValidTickers := by decide

lemma final_check_iff {df : PriceTable} (h2 : ¬ df.nRows < 2) :
    (dfEmpty (finalClean df) || decide ((finalClean df).cols.length < 1)) = true ↔
      (finalClean df).cols = [] := by
  have hfr : (finalClean df).nRows = df.nRows := nRows_finalClean df
  constructor
  · intro h
    rw [Bool.or_eq_true] at h
    rcases h with ha | hb
    · unfold dfEmpty at ha
      rw [Bool.or_eq_true] at ha
      rcases ha with h0 | hemp
    
      · exfalso
        rw [hfr, beq_iff_eq] at h0
        omega
      · exact List.isEmpty_iff.mp hemp
    · rw [decide_eq_true_eq] at hb
      exact List.length_eq_zero.mp (by omega)
  · intro h
    rw [Bool.or_eq_true]
    right
    rw [decide_eq_true_eq, h]
    simp

/-- C2, amended: the three failure conditions of the claim hold exactly as
stated, but the code does not raise three distinct exception types the
caller can tell apart by type: every failure is a plain ValueError, and
only the message distinguishes the three conditions.  The empty-data
failure also fires on a frame with rows but zero columns, since pandas
df.empty is true there (the same correction as in C1). -/
theorem C2_error_taxonomy (df : PriceTable) (req : List String) :
    validate_and_clean_prices none req =
      .error (PyError.mk "ValueError" "price data is None")
  ∧ (errTag (validate_and_clean_prices (some df) req) = some CleanFailure.emptyData
      ↔ dfEmpty df = true)
  ∧ (errTag (validate_and_clean_prices (some df) req) = some CleanFailure.insufficientHistory
      ↔ (dfEmpty df = false ∧ df.nRows < 2))
  ∧ (errTag (validate_and_clean_prices (some df) req) = some CleanFailure.noValidTickers
      ↔ (dfEmpty df = false ∧ ¬(df.nRows < 2) ∧ (finalClean df).cols = []))
  ∧ (∀ e, validate_and_clean_prices (some df) req = .error e → e.etype = "ValueError") := by
  refine ⟨rfl, ?_⟩
  rw [vacp_some, nRows_dropAllNanCols]
  by_cases h1 : dfEmpty df = true
  · rw [if_pos h1]
    refine ⟨by simp [errTag, tag_empty_msg, h1], by simp [errTag, tag_empty_msg, h1],
      by simp [errTag, tag_empty_msg, h1], ?_⟩
    intro e he
    rw [← Except.error.inj he]
  · rw [if_neg h1]
    rw [Bool.not_eq_true] at h1
    by_cases h2 : df.nRows < 2
    · rw [if_pos h2]
      refine ⟨by simp [errTag, tag_rows_msg, h1], by simp [errTag, tag_rows_msg, h1, h2],
        by simp [errTag, tag_rows_msg, h1, h2], ?_⟩
      intro e he
      rw [← Except.error.inj he]
    · rw [if_neg h2]
      by_cases h3 : (finalClean df).cols = []
      · rw [if_pos ((final_check_iff h2).mpr h3)]
        refine ⟨by simp [errTag, tag_novalid_msg, h1], by simp [errTag, tag_novalid_msg, h1, h2],
          by simp [errTag, tag_novalid_msg, h1, h2, h3], ?_⟩
        intro e he
        rw [← Except.error.inj he]
      · have hcf : (dfEmpty (finalClean df)
            || decide ((finalClean df).cols.length < 1)) = false := by
          by_cases hc : (dfEmpty (finalClean df)
              || decide ((finalClean df).cols.length < 1)) = true
          · exact absurd ((final_check_iff h2).mp hc) h3
          · rw [← Bool.not_eq_true]
            exact hc
        rw [if_neg (by rw [hcf]; simp)]
        refine ⟨by simp [errTag, h1], by simp [errTag, h1, h2], by simp [errTag, h3], ?_⟩
        intro e he
        exact absurd he (by simp)

/-- C1 counterexample: at a frame with 2 rows and zero columns the code
raises the step-1 empty-data ValueError, because pandas df.empty is already
true with zero columns, while the step list of the claim, whose first test
fails only on an absent table or zero rows, runs through and fails at step
6 with the no-valid-tickers failure.  The claimed step sequence therefore
disagrees with the code at this input. -/
theorem C1_counterexample :
    validate_and_clean_prices (some dfNoCols) ["A"] =
      .error (PyError.mk "ValueError" "price data is empty")
  ∧ cleanSpecSteps (fun df => df.nRows == 0) (some dfNoCols) ["A"] =
      .error CleanFailure.noValidTickers
  ∧ agreesWithSpec (validate_and_clean_prices (some dfNoCols) ["A"])
      (cleanSpecSteps (fun df => df.nRows == 0) (some dfNoCols) ["A"]) = false := by
  refine ⟨by decide, by decide, by decide⟩

/-- Witness for the amended C1 theorem at a concrete frame. -/
theorem C1_cleaning_pipeline_witness :
    agreesWithSpec (validate_and_clean_prices (some dfExampleAB) ["A", "B"])
      (cleanSpecSteps dfEmpty (some dfExampleAB) ["A", "B"]) = true :=
  (C1_cleaning_pipeline ["A", "B"]).2 dfExampleAB (by decide)

/-- C2 counterexample: the failures for the empty-data condition and for
the insufficient-history condition carry the same Python exception type,
ValueError.  The caller cannot tell the three failure conditions apart by
exception type, against the claim of three distinct error types. -/
theorem C2_counterexample :
    validate_and_clean_prices none [] =
      .error (PyError.mk "ValueError" "price data is None")
  ∧ validate_and_clean_prices (some dfOneRow) ["A"] =
      .error (PyError.mk "ValueError" "insufficient history rows")
  ∧ (PyError.mk "ValueError" "price data is None").etype =
      (PyError.mk "ValueError" "insufficient history rows").etype := by
  refine ⟨by decide, by decide, rfl⟩

/-- Witness for the amended C2 theorem at concrete frames: the theorem
applied at a one-row frame yields the insufficient-history classification,
and yields the ValueError type of a raised failure. -/
theorem C2_error_taxonomy_witness :
    errTag (validate_and_clean_prices (some dfOneRow) ["A"]) =
      some CleanFailure.insufficientHistory :=
  (C2_error_taxonomy dfOneRow ["A"]).2.2.1.mpr ⟨by decide, by decide⟩

/-- C3: cleaning is idempotent.  Every table returned by a successful
cleaning call, cleaned again with its own columns as the requested tickers,
comes back unchanged with an empty removed list. -/
theorem C3_cleaning_idempotent (df : PriceTable) (req : List String)
    (T : PriceTable) (rem : List String)
    (h : validate_and_clean_prices (some df) req = .ok (T, rem)) :
    validate_and_clean_prices (some T) (colNames T) = .ok (T, []) := by
  rw [vacp_some] at h
  by_cases h1 : dfEmpty df = true
  · rw [if_pos h1] at h
    exact absurd h (by simp)
  · rw [if_neg h1] at h
    by_cases h2 : (dropAllNanCols df).nRows < 2
    · rw [if_pos h2] at h
      exact absurd h (by simp)
    · rw [if_neg h2] at h
      by_cases h3 : (dfEmpty (finalClean df)
          || decide ((finalClean df).cols.length < 1)) = true
      · rw [if_pos h3] at h
        exact absurd h (by simp)
      · rw [if_neg h3] at h
        have hT : T = finalClean df := by
          have hp := Except.ok.inj h
          exact (congrArg Prod.fst hp).symm
        rw [nRows_dropAllNanCols] at h2
        have hTr : T.nRows = df.nRows := by
          rw [hT]
          exact nRows_finalClean df
        have hcols : ∀ c ∈ T.cols, nonNullCount c.2 ≠ 0
            ∧ ¬(nonNullCount c.2 < min_obs_of (dropAllNanCols df))
            ∧ ¬(nuniqueDropna c.2 ≤ 1) := by
          intro c hc
          rw [hT] at hc
          obtain ⟨_, hnn, hlow, hq⟩ := mem_finalClean hc
          exact ⟨hnn, hlow, hq⟩
        have hTne : T.cols ≠ [] := by
          intro hnil
          apply h3
          rw [Bool.or_eq_true]
          right
          rw [decide_eq_true_eq, ← hT, hnil]
          simp
        have hdrop : dropAllNanCols T = T := by
          unfold dropAllNanCols
          have hf : T.cols.filter (fun c => nonNullCount c.2 != 0) = T.cols := by
            apply List.filter_eq_self.mpr
            intro c hc
            simpa using (hcols c hc).1
          rw [hf]
        have hmin : min_obs_of T = min_obs_of (dropAllNanCols df) := by
          unfold min_obs_of
          rw [hTr]
          rfl
        have hlow0 : low_obs_of T = [] := by
          unfold low_obs_of
          rw [List.map_eq_nil_iff]
          apply List.filter_eq_nil_iff.mpr
          intro c hc
          simp only [decide_eq_true_eq, hmin]
          exact (hcols c hc).2.1
        have hAL : afterLowObs T = T := by
          unfold afterLowObs
          rw [hlow0]
          simp
        have hconst0 : const_cols_of T = [] := by
          unfold const_cols_of
          rw [List.map_eq_nil_iff]
          apply List.filter_eq_nil_iff.mpr
          intro c hc
          simp only [decide_eq_true_eq]
          exact (hcols c hc).2.2
        have hAC : afterConst T = T := by
          unfold afterConst
          rw [hconst0]
          simp
        have hfinal : finalClean T = T := by
          unfold finalClean
          rw [hdrop, hAL, hAC]
        have hTemp : dfEmpty T = false := by
          unfold dfEmpty
          rw [Bool.or_eq_false_iff]
          constructor
          · rw [hTr]
            simp only [beq_eq_false_iff_ne, ne_eq]
            omega
          · simp [hTne]
        rw [vacp_some]
        rw [if_neg (by rw [hTemp]; simp)]
        rw [if_neg (by rw [nRows_dropAllNanCols, hTr]; exact h2)]
        have hlen : ¬(T.cols.length < 1) := by
          have := List.length_pos.mpr hTne
          omega
        rw [if_neg (by
          rw [hfinal]
          rw [Bool.or_eq_true]
          rintro (ha | hb)
          · rw [hTemp] at ha
            exact Bool.false_ne_true ha
          · rw [decide_eq_true_eq] at hb
            exact hlen hb)]
        have hreq : (colNames T).filter
            (fun t => !((colNames (dropAllNanCols T)).contains t)) = [] := by
          rw [hdrop]
          apply List.filter_eq_nil_iff.mpr
          intro t ht
          rw [contains_eq_true_iff.mpr ht]
          simp
        have hacc : removedAccum T (colNames T) = [] := by
          unfold removedAccum
          rw [hreq, hdrop, hlow0, hAL, hconst0]
          rfl
        rw [hfinal, hacc]
        rfl

/-- Witness: C3 applied to a concrete successful cleaning run. -/
theorem C3_cleaning_idempotent_witness :
    validate_and_clean_prices
        (some ⟨4, [("A", [some 1, some 2, some 3, some 4])]⟩)
        (colNames ⟨4, [("A", [some 1, some 2, some 3, some 4])]⟩) =
      .ok (⟨4, [("A", [some 1, some 2, some 3, some 4])]⟩, []) :=
  C3_cleaning_idempotent dfExampleAB ["A", "B"]
    ⟨4, [("A", [some 1, some 2, some 3, some 4])]⟩ ["B"] (by decide)

/-- C4, amended: the removed_tickers value of a successful cleaning call is
the deduplicated removal record sorted in ascending Python string order,
not in discovery order, because the source returns sorted(set(removed)).
The returned list is duplicate free and ascending, and holds exactly the
tickers of the discovery-order removal record. -/
theorem C4_removed_list_sorted (df : PriceTable) (req : List String)
    (T : PriceTable) (rem : List String)
    (h : validate_and_clean_prices (some df) req = .ok (T, rem)) :
    rem = pySortedSet (removedAccum df req)
  ∧ rem.Nodup
  ∧ strAscending rem
  ∧ (∀ s, s ∈ rem ↔ s ∈ removedAccum df req) := by
  have hrem : rem = pySortedSet (removedAccum df req) := by
    rw [vacp_some] at h
    by_cases h1 : dfEmpty df = true
    · rw [if_pos h1] at h
      exact absurd h (by simp)
    · rw [if_neg h1] at h
      by_cases h2 : (dropAllNanCols df).nRows < 2
      · rw [if_pos h2] at h
        exact absurd h (by simp)
      · rw [if_neg h2] at h
        by_cases h3 : (dfEmpty (finalClean df)
            || decide ((finalClean df).cols.length < 1)) = true
        · rw [if_pos h3] at h
          exact absurd h (by simp)
        · rw [if_neg h3] at h
          have hp := Except.ok.inj h
          exact (congrArg Prod.snd hp).symm
  refine ⟨hrem, ?_, ?_, ?_⟩
  · rw [hrem]
    exact nodup_pySortedSet _
  · rw [hrem]
    exact ascending_pySortedSet _
  · intro s
    rw [hrem]
    exact mem_pySortedSet

/-- C4 counterexample: requesting B, A, C on a frame where A and B are
entirely missing discovers B first and then A, so the discovery-order
deduplicated removal list is B, A; the code returns the sorted list A, B,
which differs.  The removed list is not in discovery order. -/
theorem C4_counterexample :
    validate_and_clean_prices (some dfRemovalOrder) ["B", "A", "C"] =
      .ok (⟨2, [("C", [some 1, some 2])]⟩, ["A", "B"])
  ∧ dedupKeepFirst (removedAccum dfRemovalOrder ["B", "A", "C"]) = ["B", "A"]
  ∧ (["A", "B"] : List String) ≠ ["B", "A"] := by
  refine ⟨by decide, by decide, by decide⟩

/-- Witness: the amended C4 theorem applied to a concrete successful run. -/
theorem C4_removed_list_sorted_witness :
    ["B"] = pySortedSet (removedAccum dfExampleAB ["A", "B"])
  ∧ (["B"] : List String).Nodup :=
  ⟨(C4_removed_list_sorted dfExampleAB ["A", "B"]
      ⟨4, [("A", [some 1, some 2, some 3, some 4])]⟩ ["B"] (by decide)).1,
   (C4_removed_list_sorted dfExampleAB ["A", "B"]
      ⟨4, [("A", [some 1, some 2, some 3, some 4])]⟩ ["B"] (by decide)).2.1⟩

lemma round_zero_comm (v : Rat) :
    roundTo3 (if |v| < mkRat 1 10000 then 0 else v) =
      (if |v| < mkRat 1 10000 then 0 else roundTo3 v) := by
  by_cases hs : |v| < mkRat 1 10000
  · rw [if_pos hs, if_pos hs]
    decide
  · rw [if_neg hs, if_neg hs]

lemma clean_weights_filter (raw : Weights) :
    (clean_weightsLib raw).filter (fun kv => kv.2 != 0) = specCleanedWeights raw := by
  unfold clean_weightsLib specCleanedWeights
  rw [List.map_map]
  have hfun : ((fun kv : String × Rat => (kv.1, roundTo3 kv.2)) ∘
      (fun kv : String × Rat => (kv.1, if |kv.2| < mkRat 1 10000 then 0 else kv.2))) =
      (fun kv : String × Rat =>
        (kv.1, if |kv.2| < mkRat 1 10000 then 0 else roundTo3 kv.2)) := by
    funext kv
    simp only [Function.comp_apply]
    rw [round_zero_comm]
  rw [hfun]

/-- C5: with rounding enabled and a successful solve, the cleaned weight
mapping returned by get_weights is exactly the raw solver weights with
entries below the 1e-4 cutoff zeroed, the remaining values rounded to 3
decimals, and exact zeros filtered out, as the spec words describe
(specCleanedWeights is written from the spec wording). -/
theorem C5_cleaned_weights (o : PortfolioOptimizer) (mu : ExpReturns)
    (covHasNaN : Bool) (raw : Weights) (method solver : String)
    (hm : validOptMethod method = true) :
    (o.get_weights mu covHasNaN (.ok ()) (.ok raw) true method solver).1 =
      .ok (clean_weightsLib raw, specCleanedWeights raw) := by
  have h1 : getWeightsTry (.ok ()) (.ok raw) true method =
      .ok (clean_weightsLib raw,
        (clean_weightsLib raw).filter (fun kv => kv.2 != 0)) := by
    unfold getWeightsTry
    rw [if_pos hm]
    rfl
  unfold PortfolioOptimizer.get_weights
  rw [h1, clean_weights_filter]

/-- Witness: C5 at a concrete raw weight vector where one entry is below
the cutoff and one entry needs rounding. -/
theorem C5_cleaned_weights_witness :
    validOptMethod "max_sharpe" = true
  ∧ (optExample.get_weights [("A", some (mkRat 1 10))] false (.ok ())
      (.ok [("A", mkRat 6 10), ("B", mkRat 3999 10000), ("C", mkRat 1 20000)])
      true "max_sharpe" "ECOS").1 =
      .ok (clean_weightsLib
          [("A", mkRat 6 10), ("B", mkRat 3999 10000), ("C", mkRat 1 20000)],
        specCleanedWeights
          [("A", mkRat 6 10), ("B", mkRat 3999 10000), ("C", mkRat 1 20000)]) :=
  ⟨by decide,
   C5_cleaned_weights optExample [("A", some (mkRat 1 10))] false
     [("A", mkRat 6 10), ("B", mkRat 3999 10000), ("C", mkRat 1 20000)]
     "max_sharpe" "ECOS" (by decide)⟩

/-- C6: when the risk-free-rate fetch yields None, NaN or raises, the
optimizer substitutes the fallback 0.02 and construction succeeds, and
get_rf_rate returns 0.02 on every optimizer so constructed. -/
theorem C6_rf_fallback (data : PriceTable) (hp : String)
    (rf_fetch : RfFetchOutcome)
    (hhp : VALID_HOLDING_PERIODS.contains hp = true)
    (hbad : rf_fetch = .noneValue ∨ rf_fetch = .nanValue ∨ rf_fetch = .raised) :
    PortfolioOptimizer.init data hp none rf_fetch =
      .ok ⟨data, hp, convert_holding_period_to_yf_period hp, mkRat 2 100⟩
  ∧ ∀ o, PortfolioOptimizer.init data hp none rf_fetch = .ok o →
      o.get_rf_rate = mkRat 2 100 := by
  have hrf : fetchRfRate rf_fetch = mkRat 2 100 := by
    rcases hbad with rfl | rfl | rfl <;> rfl
  have hinit : PortfolioOptimizer.init data hp none rf_fetch =
      .ok ⟨data, hp, convert_holding_period_to_yf_period hp, mkRat 2 100⟩ := by
    unfold PortfolioOptimizer.init
    rw [if_neg (by rw [hhp]; simp)]
    rw [show (match (none : Option Rat) with
      | none => fetchRfRate rf_fetch
      | some r => r) = fetchRfRate rf_fetch from rfl, hrf]
  refine ⟨hinit, ?_⟩
  intro o ho
  rw [hinit] at ho
  have := Except.ok.inj ho
  rw [← this]
  rfl

/-- Witness: C6 at a concrete frame with a raising fetch. -/
theorem C6_rf_fallback_witness :
    PortfolioOptimizer.init (⟨2, [("A", [some 1, some 2])]⟩ : PriceTable)
        "1 Mo" none RfFetchOutcome.raised =
      .ok ⟨⟨2, [("A", [some 1, some 2])]⟩, "1 Mo",
        convert_holding_period_to_yf_period "1 Mo", mkRat 2 100⟩ :=
  (C6_rf_fallback (⟨2, [("A", [some 1, some 2])]⟩ : PriceTable) "1 Mo"
    RfFetchOutcome.raised (by decide) (Or.inr (Or.inr rfl))).1

/-- C7: every method string outside mean, capm, ema makes
get_expected_returns raise the invalid-type ValueError, and every method
string outside ledoit_wolf, semicovariance, exponential makes
get_covariance_matrix raise its invalid-type ValueError, for every
behaviour of the library estimators.  InvalidMethodError is the name the
spec gives to this error; the code raises it as a ValueError. -/
theorem C7_invalid_method
    (meanF capmF emaF : PriceTable → ExpReturns)
    (ledoitF semicovF expCovF : PriceTable → Nat → CovMatrix)
    (o : PortfolioOptimizer) (freq : Nat) (tyR tyC : String)
    (hR : tyR ∉ ["mean", "capm", "ema"])
    (hC : tyC ∉ ["ledoit_wolf", "semicovariance", "exponential"]) :
    PortfolioOptimizer.get_expected_returns meanF capmF emaF o tyR =
      .error (PyError.mk "ValueError" "Invalid type. Use mean, capm, or ema.")
  ∧ PortfolioOptimizer.get_covariance_matrix ledoitF semicovF expCovF o tyC freq =
      .error (PyError.mk "ValueError"
        "Invalid type. Use ledoit_wolf, semicovariance, or exponential.") := by
  simp only [List.mem_cons, List.not_mem_nil, or_false, not_or] at hR hC
  constructor
  · unfold PortfolioOptimizer.get_expected_returns
    rw [if_neg (by simp [hR.1]), if_neg (by simp [hR.2.1]), if_neg (by simp [hR.2.2])]
  · unfold PortfolioOptimizer.get_covariance_matrix
    rw [if_neg (by simp [hC.1]), if_neg (by simp [hC.2.1]), if_neg (by simp [hC.2.2])]

/-- Witness: C7 with the method string bogus of the spec scenario, and the
string exp_cov for the covariance side, for constant library oracles. -/
theorem C7_invalid_method_witness :
    PortfolioOptimizer.get_expected_returns (fun _ => []) (fun _ => [])
        (fun _ => []) optExample "bogus" =
      .error (PyError.mk "ValueError" "Invalid type. Use mean, capm, or ema.")
  ∧ PortfolioOptimizer.get_covariance_matrix (fun _ _ => []) (fun _ _ => [])
        (fun _ _ => []) optExample "exp_cov" 252 =
      .error (PyError.mk "ValueError"
        "Invalid type. Use ledoit_wolf, semicovariance, or exponential.") :=
  C7_invalid_method (fun _ => []) (fun _ => []) (fun _ => [])
    (fun _ _ => []) (fun _ _ => []) (fun _ _ => []) optExample 252
    "bogus" "exp_cov" (by decide) (by decide)

/-- C8, amended: when anything in the try block of get_weights fails, the
code prints the diagnostic bundle, method, solver, risk-free rate, number
of assets, returns range, returns mean, NaN flags for returns and
covariance, and re-raises the original exception unchanged: the bundle is
logging output, the raised error is the untouched solver exception. -/
theorem C8_failure_reraise (o : PortfolioOptimizer) (mu : ExpReturns)
    (covHasNaN : Bool) (construct : Except PyError Unit)
    (solve : Except PyError Weights) (roundW : Bool) (method solver : String)
    (e : PyError) (h : getWeightsTry construct solve roundW method = .error e) :
    o.get_weights mu covHasNaN construct solve roundW method solver =
      (.error e, some (mkDiagnostics method solver o.rf_rate mu covHasNaN)) := by
  unfold PortfolioOptimizer.get_weights
  rw [h]

/-- C8 counterexample: a solver failure of type SolverError is surfaced by
get_weights as that same SolverError, not as an OptimizationError carrying
the diagnostic context; the diagnostics go to the print log only. -/
theorem C8_counterexample :
    (optExample.get_weights [("A", some (mkRat 1 10))] false (.ok ())
      (.error (PyError.mk "SolverError" "infeasible")) true "max_sharpe" "ECOS").1 =
      .error (PyError.mk "SolverError" "infeasible")
  ∧ ("SolverError" : String) ≠ "OptimizationError" := by
  refine ⟨by decide, by decide⟩

/-- Witness: C8 at a concrete solver failure. -/
theorem C8_failure_reraise_witness :
    optExample.get_weights [("A", some (mkRat 1 10))] false (.ok ())
      (.error (PyError.mk "SolverError" "infeasible")) true "max_sharpe" "ECOS" =
      (.error (PyError.mk "SolverError" "infeasible"),
        some (mkDiagnostics "max_sharpe" "ECOS" (mkRat 2 100)
          [("A", some (mkRat 1 10))] false)) :=
  C8_failure_reraise optExample [("A", some (mkRat 1 10))] false (.ok ())
    (.error (PyError.mk "SolverError" "infeasible")) true "max_sharpe" "ECOS"
    (PyError.mk "SolverError" "infeasible") (by decide)

/-- C9, amended: get_allocation returns only the share mapping computed by
the discrete-allocation LP; the leftover cash the library also returns is
discarded, so the result is independent of it. -/
theorem C9_allocation_shares_only (o : PortfolioOptimizer) (weights : Weights)
    (port_value : Rat) (alloc : SharesMap) (leftover leftover2 : Rat) :
    o.get_allocation weights port_value (alloc, leftover) = alloc
  ∧ o.get_allocation weights port_value (alloc, leftover) =
      o.get_allocation weights port_value (alloc, leftover2) :=
  ⟨rfl, rfl⟩

/-- C9 counterexample: two library outcomes differing only in the leftover
cash, 18.5 against 0, produce identical get_allocation results.  The
return value carries no leftover cash, so the operation does not return
the claimed pair of share mapping and leftover. -/
theorem C9_counterexample :
    optExample.get_allocation [("A", mkRat 1 2)] 1000 ([("A", 5)], mkRat 37 2) =
      [("A", 5)]
  ∧ optExample.get_allocation [("A", mkRat 1 2)] 1000 ([("A", 5)], 0) = [("A", 5)]
  ∧ mkRat 37 2 ≠ 0 := by
  refine ⟨rfl, rfl, by decide⟩

/-- C10: an invalid holding period makes both construction and
set_holding_period fail with the ValueError before producing any state,
and every reachable optimizer state keeps the invariant that its holding
period is one of the ten labels and its period is the matching yfinance
label. -/
theorem C10_holding_period_invariant :
    (∀ (data : PriceTable) (hp : String) (rf : Option Rat)
        (rf_fetch : RfFetchOutcome),
      VALID_HOLDING_PERIODS.contains hp = false →
        PortfolioOptimizer.init data hp rf rf_fetch =
          .error (PyError.mk "ValueError"
            "holding_period must be one of VALID_HOLDING_PERIODS"))
  ∧ (∀ (o : PortfolioOptimizer) (hp : String) (rf_fetch : RfFetchOutcome),
      VALID_HOLDING_PERIODS.contains hp = false →
        o.set_holding_period hp rf_fetch =
          .error (PyError.mk "ValueError"
            "holding_period must be one of VALID_HOLDING_PERIODS"))
  ∧ (∀ o, ReachableOptimizer o →
      VALID_HOLDING_PERIODS.contains o.holding_period = true
      ∧ o.period = convert_holding_period_to_yf_period o.holding_period) := by
  refine ⟨?_, ?_, ?_⟩
  · intro data hp rf rf_fetch h
    unfold PortfolioOptimizer.init
    rw [if_pos (by rw [h]; rfl)]
  · intro o hp rf_fetch h
    unfold PortfolioOptimizer.set_holding_period
    rw [if_pos (by rw [h]; rfl)]
  · intro o hr
    induction hr with
    | made data hp rf rf_fetch o h =>
      unfold PortfolioOptimizer.init at h
      by_cases hv : VALID_HOLDING_PERIODS.contains hp = true
      · rw [if_neg (by rw [hv]; simp)] at h
        have hp2 := Except.ok.inj h
        rw [← hp2]
        exact ⟨hv, rfl⟩
      · rw [Bool.not_eq_true] at hv
        rw [if_pos (by rw [hv]; rfl)] at h
        exact absurd h (by simp)
    | resetHolding o o2 hp rf_fetch hro h ih =>
      unfold PortfolioOptimizer.set_holding_period at h
      by_cases hv : VALID_HOLDING_PERIODS.contains hp = true
      · rw [if_neg (by rw [hv]; simp)] at h
        have hp2 := Except.ok.inj h
        rw [← hp2]
        exact ⟨hv, rfl⟩
      · rw [Bool.not_eq_true] at hv
        rw [if_pos (by rw [hv]; rfl)] at h
        exact absurd h (by simp)
    | resetRf o r hro ih =>
      exact ih

/-- Witness: C10 at the invalid label 2 Mo and at a reachable instance. -/
theorem C10_holding_period_invariant_witness :
    PortfolioOptimizer.init (⟨2, [("A", [some 1, some 2])]⟩ : PriceTable)
        "2 Mo" none RfFetchOutcome.raised =
      .error (PyError.mk "ValueError"
        "holding_period must be one of VALID_HOLDING_PERIODS")
  ∧ VALID_HOLDING_PERIODS.contains optExample.holding_period = true :=
  ⟨C10_holding_period_invariant.1 (⟨2, [("A", [some 1, some 2])]⟩ : PriceTable)
      "2 Mo" none RfFetchOutcome.raised (by decide),
   (C10_holding_period_invariant.2.2 optExample
      (ReachableOptimizer.made (⟨2, [("A", [some 1, some 2])]⟩ : PriceTable)
        "1 Yr" (some (mkRat 2 100)) RfFetchOutcome.raised optExample
        (by decide))).1⟩
